import Mathlib

/-!
Shallow embedding of the sequelize-adapter policy storage adapter
(`src/adapter.ts`, plus the variant adapter and test in the unnamed source
file): the rule codec (`CasbinRule.buildRule` and the per-line decoding in
`loadPolicy`), the store-level CRUD operations, the transaction wrapping
`savePolicy`, and the connection lifecycle.

Storage is modelled as a list of persisted records; the backing engine's
auto-generated `id` is a `Nat` assigned at insert.  A JS `undefined`/`null`
slot is `Option.none`; the JS truthiness coercions in the source
(`v0 || null`, `.filter(n => n)`) are modelled by `orNull`.
-/

namespace SequelizeCasbin

/-- Typed error surface of the adapter operations.  The source throws on
`removeFilteredPolicy` (`notImplemented`), propagates write/transaction
failures (`saveFailed`), and fails when the underlying connection is
unusable (`storeUnavailable`).  `notOpen` is the lifecycle error named by
the documentation; it is included so that statements about it can be made,
even though no code path produces it. -/
inductive AdapterError where
  | saveFailed
  | notImplemented
  | storeUnavailable
  | notOpen
deriving DecidableEq, Repr

/-- The JS coercion `x || null` on an optional string: `undefined` and the
empty string (both falsy) become `null`; any other string is kept. -/
def orNull : Option String → Option String
  | some s => if s = "" then none else some s
  | none => none

/-- The shape of one storage record minus its `id`: `ptype` plus six
nullable slots.  This is what `line.get({plain: true})` yields after
`delete where.id` in `removePolicy`, and what `buildRule` constructs
(the `id` is left for the store to assign). -/
structure RuleData where
  ptype : String
  v0 : Option String
  v1 : Option String
  v2 : Option String
  v3 : Option String
  v4 : Option String
  v5 : Option String
deriving DecidableEq, Repr

/-- A persisted record: the store-owned `id` plus the rule data. -/
structure CasbinRule where
  id : Nat
  ptype : String
  v0 : Option String
  v1 : Option String
  v2 : Option String
  v3 : Option String
  v4 : Option String
  v5 : Option String
deriving DecidableEq, Repr

/-- `CasbinRule.buildRule(ptype, rule)`:
`const [v0, v1, v2, v3, v4, v5] = rule` takes the first six elements
(missing ones are `undefined`), then each slot is `vi || null`. -/
def buildRule (pt : String) (rule : List String) : RuleData where
  ptype := pt
  v0 := orNull rule[0]?
  v1 := orNull rule[1]?
  v2 := orNull rule[2]?
  v3 := orNull rule[3]?
  v4 := orNull rule[4]?
  v5 := orNull rule[5]?

/-- The rule data of a persisted record (all attributes except `id`). -/
def dataOf (r : CasbinRule) : RuleData :=
  ⟨r.ptype, r.v0, r.v1, r.v2, r.v3, r.v4, r.v5⟩

/-- Attach a store-assigned `id` to rule data, as insertion does. -/
def withId (n : Nat) (d : RuleData) : CasbinRule :=
  ⟨n, d.ptype, d.v0, d.v1, d.v2, d.v3, d.v4, d.v5⟩

/-- The slot array `[line.v0, line.v1, line.v2, line.v3, line.v4, line.v5]`
used by the decoding in `loadPolicy`. -/
def slotsOf (d : RuleData) : List (Option String) :=
  [d.v0, d.v1, d.v2, d.v3, d.v4, d.v5]

/-- The per-line decoding of `loadPolicy`:
`[v0..v5].filter(n => n)` keeps exactly the truthy slots (present and
nonempty), in slot order; these are the parameters handed to the model. -/
def decodeParams (d : RuleData) : List String :=
  (slotsOf d).filterMap orNull

/-- A decoded policy line: the rule-set name and its parameter list. -/
def decodeRuleData (d : RuleData) : String × List String :=
  (d.ptype, decodeParams d)

/-- `loadPolicy`: fetch every record and decode it to a policy line. -/
def loadPolicy (store : List CasbinRule) : List (String × List String) :=
  store.map (fun r => decodeRuleData (dataOf r))

/-- The policy model as `savePolicy` reads it: the rule-set maps of the
`p` (access rule) and `g` (role-grouping) sections, each an association
of rule-set name (`ptype`) to its list of rules. -/
structure Model where
  p : List (String × List (List String))
  g : List (String × List (List String))
deriving DecidableEq, Repr

/-- The records built from one section's rule-set map, in iteration order:
for each `(ptype, ast)` entry, one `buildRule ptype rule` per rule. -/
def linesOf (entries : List (String × List (List String))) : List RuleData :=
  entries.flatMap (fun e => e.2.map (buildRule e.1))

/-- All records `savePolicy` builds: the `p` section's lines followed by
the `g` section's lines, as in the source's two loops. -/
def modelLines (m : Model) : List RuleData :=
  linesOf m.p ++ linesOf m.g

/-- Store-assigned ids for a batch insert, numbered from `n`. -/
def withIds : Nat → List RuleData → List CasbinRule
  | _, [] => []
  | n, d :: ds => withId n d :: withIds (n + 1) ds

/-- `bulkCreate`: every inserted row gets a fresh store-assigned id. -/
def assignIds (ls : List RuleData) : List CasbinRule :=
  withIds 0 ls

/-- The store contents after a successful `savePolicy(model)`. -/
def savedStore (m : Model) : List CasbinRule :=
  assignIds (modelLines m)

/-- An open transaction over the store: the committed state it started
from and the working state its statements act on. -/
structure Tx where
  committed : List CasbinRule
  working : List CasbinRule
deriving DecidableEq, Repr

/-- `sequelize.transaction()`: the working state starts at the committed
state. -/
def txBegin (s : List CasbinRule) : Tx :=
  ⟨s, s⟩

/-- `CasbinRule.destroy({where: {}, truncate: true, transaction: tx})`
inside the transaction; `fault` injects a thrown store error. -/
def txDestroyAll (t : Tx) (fault : Bool) : Except AdapterError Tx :=
  if fault then .error .saveFailed else .ok { t with working := [] }

/-- `CasbinRule.bulkCreate(rows, {transaction: tx})`; `fault` injects a
thrown store error. -/
def txBulkCreate (rows : List CasbinRule) (t : Tx) (fault : Bool) :
    Except AdapterError Tx :=
  if fault then .error .saveFailed else .ok { t with working := t.working ++ rows }

/-- `tx.commit()`: the working state becomes the store state. -/
def txCommit (t : Tx) : List CasbinRule :=
  t.working

/-- `tx.rollback()`: the working state is discarded and the store keeps
the state committed when the transaction began. -/
def txRollback (t : Tx) : List CasbinRule :=
  t.committed

/-- `savePolicy(model)`: begin a transaction, delete all rows, bulk-insert
the model's lines, commit; on any thrown failure, roll back and rethrow.
`fd`/`fi` inject a fault into the delete-all / bulk-insert statement.
Returns the call's result together with the resulting store state. -/
def savePolicy (m : Model) (store : List CasbinRule) (fd fi : Bool) :
    Except AdapterError Bool × List CasbinRule :=
  let t0 := txBegin store
  match txDestroyAll t0 fd with
  | .error e => (.error e, txRollback t0)
  | .ok t1 =>
    match txBulkCreate (assignIds (modelLines m)) t1 fi with
    | .error e => (.error e, txRollback t1)
    | .ok t2 => (.ok true, txCommit t2)

/-- `addPolicy(sec, ptype, rule)`: build the record and `line.save()` it;
the store assigns `newId`.  The `sec` argument is accepted but unused,
as in the source. -/
def addPolicy (sec1 pt : String) (rule : List String) (newId : Nat)
    (store : List CasbinRule) : List CasbinRule :=
  let _ := sec1
  store ++ [withId newId (buildRule pt rule)]

/-- `removePolicy(sec, ptype, rule)`: build the record, take its plain
attributes, `delete where.id`, and destroy every row matching the
remaining fields (a `null` field matches an absent slot).  The `sec`
argument is accepted but unused, as in the source. -/
def removePolicy (sec1 pt : String) (rule : List String)
    (store : List CasbinRule) : List CasbinRule :=
  let _ := sec1
  store.filter (fun r => decide (dataOf r ≠ buildRule pt rule))

/-- Connection lifecycle of the adapter: constructed but not opened,
opened (`newAdapter` runs `open()`), or after `close()`. -/
inductive Lifecycle where
  | unopened
  | opened
  | closed
deriving DecidableEq, Repr

/-- The adapter's own state: its lifecycle stage and whether it owns the
underlying connection (it created it from options) or borrowed it (a
caller-supplied instance).  `close()` only closes an owned connection. -/
structure AdapterHandle where
  life : Lifecycle
  ownsConnection : Bool
deriving DecidableEq, Repr

/-- `newAdapter(option)`: construct and `open()` — the returned adapter is
immediately usable. -/
def newAdapter (owns : Bool) : AdapterHandle :=
  ⟨.opened, owns⟩

/-- `close()`: the adapter is closed; the underlying connection is closed
only when owned (`isOwnSequelizeInstance`). -/
def closeAdapter (a : AdapterHandle) : AdapterHandle :=
  { a with life := .closed }

/-- Whether the underlying connection still serves statements: before
`open()` the table model is uninitialised, and after `close()` an owned
connection is shut down; a borrowed connection stays usable after
`close()` because `close()` did not touch it.  No code path consults the
lifecycle itself — operations just hit the connection. -/
def connectionUsable (a : AdapterHandle) : Bool :=
  match a.life with
  | .unopened => false
  | .opened => true
  | .closed => !a.ownsConnection

/-- `loadPolicy` as invoked on an adapter: the source performs no
lifecycle check; the call fails only if the connection cannot serve it. -/
def loadPolicyOp (a : AdapterHandle) (store : List CasbinRule) :
    Except AdapterError (List (String × List String)) :=
  if connectionUsable a then .ok (loadPolicy store) else .error .storeUnavailable

/-- `savePolicy` as invoked on an adapter: no lifecycle check in the
source; fails only through the connection. -/
def savePolicyOp (a : AdapterHandle) (m : Model) (store : List CasbinRule)
    (fd fi : Bool) : Except AdapterError Bool × List CasbinRule :=
  if connectionUsable a then savePolicy m store fd fi
  else (.error .storeUnavailable, store)

/-- `addPolicy` as invoked on an adapter: no lifecycle check in the
source. -/
def addPolicyOp (a : AdapterHandle) (sec1 pt : String) (rule : List String)
    (newId : Nat) (store : List CasbinRule) :
    Except AdapterError (List CasbinRule) :=
  if connectionUsable a then .ok (addPolicy sec1 pt rule newId store)
  else .error .storeUnavailable

/-- `removePolicy` as invoked on an adapter: no lifecycle check in the
source; deleting zero rows is still a success. -/
def removePolicyOp (a : AdapterHandle) (sec1 pt : String) (rule : List String)
    (store : List CasbinRule) : Except AdapterError (List CasbinRule) :=
  if connectionUsable a then .ok (removePolicy sec1 pt rule store)
  else .error .storeUnavailable

/-- `removeFilteredPolicy(sec, ptype, fieldIndex, ...fieldValues)`: the
body is `throw new Error('not implemented')` — it throws before touching
the store, in every adapter state. -/
def removeFilteredPolicy (a : AdapterHandle) (sec1 pt : String)
    (fieldIndex : Nat) (fieldValues : List String)
    (store : List CasbinRule) : Except AdapterError (List CasbinRule) :=
  let _ := (a, sec1, pt, fieldIndex, fieldValues, store)
  .error .notImplemented

/-- The rules a loaded store contributes to rule-set name `t`: the decoded
parameter lists of the records whose `ptype` is `t`, in store order. -/
def loadedRules (store : List CasbinRule) (t : String) : List (List String) :=
  (loadPolicy store).filterMap (fun pr => if pr.1 = t then some pr.2 else none)

/-- The rules one section's map holds under rule-set name `t`. -/
def rulesFor (entries : List (String × List (List String))) (t : String) :
    List (List String) :=
  (entries.filterMap (fun e => if e.1 = t then some e.2 else none)).flatten

/-- The rules a model holds under rule-set name `t`, across both
sections. -/
def modelRules (m : Model) (t : String) : List (List String) :=
  rulesFor m.p t ++ rulesFor m.g t

/-- A rule the codec handles faithfully: at most six parameters, none the
empty string (the source coerces a falsy parameter to `null`). -/
def wfRule (r : List String) : Prop :=
  r.length ≤ 6 ∧ ∀ x ∈ r, x ≠ ""

instance (r : List String) : Decidable (wfRule r) := by
  unfold wfRule; infer_instance

/-- A section map all of whose rules the codec handles faithfully. -/
def wfEntries (entries : List (String × List (List String))) : Prop :=
  ∀ e ∈ entries, ∀ r ∈ e.2, wfRule r

instance (entries : List (String × List (List String))) :
    Decidable (wfEntries entries) := by
  unfold wfEntries; infer_instance

/-- A model all of whose rules the codec handles faithfully. -/
def wfModel (m : Model) : Prop :=
  wfEntries m.p ∧ wfEntries m.g

instance (m : Model) : Decidable (wfModel m) := by
  unfold wfModel; infer_instance

/-! ### Basic facts about the codec -/

theorem orNull_some_of_ne (s : String) (h : s ≠ "") : orNull (some s) = some s := by
  simp [orNull, h]

theorem orNull_ne_some_empty (x : Option String) : orNull x ≠ some "" := by
  cases x with
  | none => simp [orNull]
  | some s =>
      by_cases hs : s = "" <;> simp [orNull, hs]

theorem orNull_isSome_iff (l : List String) (i : Nat) :
    (orNull l[i]?).isSome = true ↔ (i < l.length ∧ l[i]? ≠ some "") := by
  cases hx : l[i]? with
  | none =>
      have hlen : l.length ≤ i := List.getElem?_eq_none_iff.mp hx
      simp [orNull]
      omega
  | some s =>
      have hne : l[i]? ≠ none := by simp [hx]
      have hi : i < l.length := by
        by_contra hc
        exact hne (List.getElem?_eq_none_iff.mpr (by omega))
      by_cases hs : s = ""
      · subst hs; simp [orNull, hi]
      · simp [orNull, hs, hi]

theorem buildRule_slots_ne_empty (pt : String) (r : List String) :
    ∀ o ∈ slotsOf (buildRule pt r), o ≠ some "" := by
  intro o ho
  simp only [slotsOf, buildRule, List.mem_cons, List.mem_singleton] at ho
  rcases ho with h | h | h | h | h | h | h
  all_goals first
    | (subst h; exact orNull_ne_some_empty _)
    | exact absurd h (by simp)

theorem dataOf_withId (n : Nat) (d : RuleData) : dataOf (withId n d) = d := rfl

theorem decode_buildRule_wf (pt : String) (r : List String) (h : wfRule r) :
    decodeRuleData (buildRule pt r) = (pt, r) := by
  obtain ⟨hlen, hne⟩ := h
  rcases r with _ | ⟨a, _ | ⟨b, _ | ⟨c, _ | ⟨d, _ | ⟨e, _ | ⟨f, _ | ⟨g, t⟩⟩⟩⟩⟩⟩⟩
  · simp [decodeRuleData, decodeParams, slotsOf, buildRule, orNull]
  · have ha := hne a (by simp)
    simp [decodeRuleData, decodeParams, slotsOf, buildRule, orNull, ha]
  · have ha := hne a (by simp)
    have hb := hne b (by simp)
    simp [decodeRuleData, decodeParams, slotsOf, buildRule, orNull, ha, hb]
  · have ha := hne a (by simp)
    have hb := hne b (by simp)
    have hc := hne c (by simp)
    simp [decodeRuleData, decodeParams, slotsOf, buildRule, orNull, ha, hb, hc]
  · have ha := hne a (by simp)
    have hb := hne b (by simp)
    have hc := hne c (by simp)
    have hd := hne d (by simp)
    simp [decodeRuleData, decodeParams, slotsOf, buildRule, orNull, ha, hb, hc, hd]
  · have ha := hne a (by simp)
    have hb := hne b (by simp)
    have hc := hne c (by simp)
    have hd := hne d (by simp)
    have he := hne e (by simp)
    simp [decodeRuleData, decodeParams, slotsOf, buildRule, orNull, ha, hb, hc, hd, he]
  · have ha := hne a (by simp)
    have hb := hne b (by simp)
    have hc := hne c (by simp)
    have hd := hne d (by simp)
    have he := hne e (by simp)
    have hf := hne f (by simp)
    simp [decodeRuleData, decodeParams, slotsOf, buildRule, orNull, ha, hb, hc, hd, he, hf]
  · simp at hlen

theorem loadPolicy_withIds (ls : List RuleData) :
    ∀ n, loadPolicy (withIds n ls) = ls.map decodeRuleData := by
  induction ls with
  | nil => intro n; rfl
  | cons d ds ih =>
      intro n
      have htail := ih (n + 1)
      simp only [withIds, loadPolicy, List.map_cons] at htail ⊢
      rw [htail]
      rfl

theorem loadPolicy_assignIds (ls : List RuleData) :
    loadPolicy (assignIds ls) = ls.map decodeRuleData :=
  loadPolicy_withIds ls 0

theorem filterMap_key_none (t : String) (rs : List (List String)) (pt : String)
    (hpt : pt ≠ t) :
    (rs.map (fun r => (pt, r))).filterMap
      (fun pr : String × List String => if pr.1 = t then some pr.2 else none) = [] := by
  rw [List.filterMap_map]
  simp [Function.comp, hpt]

theorem loaded_linesOf (t : String) :
    ∀ entries, wfEntries entries →
      ((linesOf entries).map decodeRuleData).filterMap
        (fun pr => if pr.1 = t then some pr.2 else none) = rulesFor entries t := by
  intro entries
  induction entries with
  | nil => intro _; rfl
  | cons e es ih =>
      intro hwf
      have hhead : ∀ r ∈ e.2, wfRule r := hwf e (by simp)
      have htail : wfEntries es := fun e' he' => hwf e' (by simp [he'])
      obtain ⟨pt, rs⟩ := e
      have hmap : (rs.map (buildRule pt)).map decodeRuleData
          = rs.map (fun r => (pt, r)) := by
        rw [List.map_map]
        exact List.map_congr_left (fun r hr => decode_buildRule_wf pt r (hhead r hr))
      simp only [linesOf, List.flatMap_cons, List.map_append, List.filterMap_append]
      rw [hmap]
      show _ ++ ((linesOf es).map decodeRuleData).filterMap _ = _
      rw [ih htail]
      by_cases hpt : pt = t
      · subst hpt
        rw [List.filterMap_map]
        have hcomp : ((fun pr : String × List String =>
              if pr.1 = pt then some pr.2 else none) ∘ fun r => (pt, r)) = some := by
          funext r; simp
        rw [hcomp, List.filterMap_some]
        simp [rulesFor, List.filterMap_cons, List.flatten_cons]
      · rw [filterMap_key_none t rs pt hpt]
        simp [rulesFor, List.filterMap_cons, hpt]

theorem loadedRules_savedStore (m : Model) (h : wfModel m) (t : String) :
    loadedRules (savedStore m) t = modelRules m t := by
  obtain ⟨hp, hg⟩ := h
  unfold loadedRules savedStore modelRules
  rw [loadPolicy_assignIds]
  unfold modelLines
  rw [List.map_append, List.filterMap_append, loaded_linesOf t m.p hp,
    loaded_linesOf t m.g hg]

theorem savePolicy_eq (m : Model) (store : List CasbinRule) (fd fi : Bool) :
    savePolicy m store fd fi =
      if fd || fi then (.error .saveFailed, store) else (.ok true, savedStore m) := by
  cases fd <;> cases fi <;>
    simp [savePolicy, txBegin, txDestroyAll, txBulkCreate, txCommit, txRollback,
      savedStore]

theorem filterMap_orNull_of_no_empty (l : List (Option String))
    (h : ∀ o ∈ l, o ≠ some "") : l.filterMap orNull = l.filterMap id := by
  induction l with
  | nil => rfl
  | cons o os ih =>
      have ho := h o (by simp)
      have hos : ∀ o' ∈ os, o' ≠ some "" := fun o' h' => h o' (by simp [h'])
      cases o with
      | none => simp [List.filterMap_cons, orNull, ih hos]
      | some s =>
          have hs : s ≠ "" := fun hc => ho (by simp [hc])
          simp [List.filterMap_cons, orNull, hs, ih hos]

theorem getElem?_ne_some_empty (l : List String) (h : ∀ x ∈ l, x ≠ "")
    (i : Nat) : l[i]? ≠ some "" := by
  intro hc
  exact h "" (List.getElem?_mem hc) rfl

/-! ### Claim theorems -/

/-- C3 (counterexample): the round-trip fails as stated.  The parameter
list `[""]` has length `1 ≤ 6` and no holes, yet `buildRule` coerces the
empty string to an absent slot (`"" || null` is `null`), so decoding the
encoded record yields `("p", [])`, not `("p", [""])`. -/
theorem C3_roundtrip_counterexample :
    decodeRuleData (buildRule "p" [""]) ≠ ("p", [""]) := by
  decide

/-- C3 (amended): for every section string and every parameter list with
at most six entries none of which is the empty string, decoding the record
produced by encoding yields back exactly the section and parameters. -/
theorem C3_roundtrip (pt : String) (r : List String) (h : wfRule r) :
    decodeRuleData (buildRule pt r) = (pt, r) :=
  decode_buildRule_wf pt r h

/-- C3 witness: the round-trip at a concrete three-parameter rule. -/
theorem C3_roundtrip_witness :
    wfRule ["alice", "data1", "read"]
    ∧ decodeRuleData (buildRule "p" ["alice", "data1", "read"])
        = ("p", ["alice", "data1", "read"]) :=
  ⟨by decide, C3_roundtrip "p" ["alice", "data1", "read"] (by decide)⟩

/-- C4 (counterexample): encoding a seven-parameter rule does not fail —
there is no arity check at all.  The destructuring
`const [v0..v5] = rule` silently drops the seventh parameter, so the
built record equals the record of the first six parameters and decodes
to just those six. -/
theorem C4_arity_counterexample :
    buildRule "p" ["a", "b", "c", "d", "e", "f", "g"]
        = buildRule "p" ["a", "b", "c", "d", "e", "f"]
    ∧ decodeRuleData (buildRule "p" ["a", "b", "c", "d", "e", "f", "g"])
        = ("p", ["a", "b", "c", "d", "e", "f"]) := by
  decide

/-- C4 (amended): `buildRule` never fails: with more than six parameters
the extras are silently ignored (the record equals that of the first six);
with exactly six parameters, none empty, it fills all six slots. -/
theorem C4_arity (pt : String) (r : List String) :
    buildRule pt r = buildRule pt (r.take 6)
    ∧ (r.length = 6 → (∀ x ∈ r, x ≠ "") →
        ∀ o ∈ slotsOf (buildRule pt r), o.isSome = true) := by
  constructor
  · have h : ∀ i, i < 6 → (r.take 6)[i]? = r[i]? := by
      intro i hi
      simp [List.getElem?_take, hi]
    simp [buildRule, h 0 (by omega), h 1 (by omega), h 2 (by omega),
      h 3 (by omega), h 4 (by omega), h 5 (by omega)]
  · intro hlen hne o ho
    have hne' := getElem?_ne_some_empty r hne
    simp only [slotsOf, buildRule, List.mem_cons, List.not_mem_nil,
      or_false] at ho
    rcases ho with h | h | h | h | h | h <;> subst h <;>
      rw [orNull_isSome_iff] <;> exact ⟨by omega, hne' _⟩

/-- C4 witness: a six-parameter rule encodes with all slots present, and
truncation is observable on a concrete seven-parameter rule. -/
theorem C4_arity_witness :
    (["a", "b", "c", "d", "e", "f"] : List String).length = 6
    ∧ (∀ x ∈ (["a", "b", "c", "d", "e", "f"] : List String), x ≠ "")
    ∧ (∀ o ∈ slotsOf (buildRule "p" ["a", "b", "c", "d", "e", "f"]),
        o.isSome = true)
    ∧ buildRule "p" ["a", "b", "c", "d", "e", "f", "g"]
        = buildRule "p" (["a", "b", "c", "d", "e", "f", "g"].take 6) :=
  ⟨by decide, by decide,
    (C4_arity "p" ["a", "b", "c", "d", "e", "f"]).2 (by decide) (by decide),
    (C4_arity "p" ["a", "b", "c", "d", "e", "f", "g"]).1⟩

/-- C6 (counterexample): the presence invariant fails as stated.  For the
rule `[""]`, slot `v0` is absent even though `0 < 1 = length(params)`,
because `"" || null` is `null`; moreover an empty-string parameter in a
`removePolicy` filter is itself coerced to the no-value state, so it does
match a record whose corresponding slot is absent: removing
`["x", ""]` deletes the stored encoding of `["x"]`. -/
theorem C6_slot_counterexample :
    ¬ (((buildRule "p" [""]).v0).isSome = true ↔ 0 < ([""] : List String).length)
    ∧ removePolicy "" "p" ["x", ""] [withId 0 (buildRule "p" ["x"])] = [] := by
  constructor
  · decide
  · decide

/-- C6 (amended): slot `vN` of an encoded rule is present iff
`N < length(params)` and the `N`-th parameter is not the empty string; an
absent slot is a distinct no-value state and no slot ever holds the empty
string (an empty-string parameter is coerced to the no-value state and
hence matches absent slots in delete filters, not empty strings). -/
theorem C6_slot_present (pt : String) (r : List String) (i : Nat)
    (h : i < 6) :
    (((slotsOf (buildRule pt r)).getD i none).isSome = true
      ↔ (i < r.length ∧ r[i]? ≠ some ""))
    ∧ ∀ o ∈ slotsOf (buildRule pt r), o ≠ some "" := by
  refine ⟨?_, buildRule_slots_ne_empty pt r⟩
  interval_cases i <;>
    simpa [slotsOf, buildRule, List.getD] using orNull_isSome_iff r _

/-- C6 witness: slot 1 of the encoded rule `["a", "b"]` is present, and
the bound and presence conditions hold concretely. -/
theorem C6_slot_present_witness :
    (1 : Nat) < 6
    ∧ ((((slotsOf (buildRule "p" ["a", "b"])).getD 1 none).isSome = true
        ↔ ((1 : Nat) < (["a", "b"] : List String).length
            ∧ (["a", "b"] : List String)[1]? ≠ some ""))
      ∧ ∀ o ∈ slotsOf (buildRule "p" ["a", "b"]), o ≠ some "") :=
  ⟨by decide, C6_slot_present "p" ["a", "b"] 1 (by decide)⟩

/-- C9: on any store all of whose records hold no empty-string slot (true
of every record the adapter writes, since `buildRule` coerces empty
strings to absent), `loadPolicy` decodes each fetched record to the
sequence of all present slot values in slot order `v0..v5`, ignoring
holes. -/
theorem C9_decode (store : List CasbinRule)
    (h : ∀ r ∈ store, ∀ o ∈ slotsOf (dataOf r), o ≠ some "") :
    loadPolicy store
      = store.map (fun r => ((dataOf r).ptype, (slotsOf (dataOf r)).filterMap id)) := by
  unfold loadPolicy
  refine List.map_congr_left (fun r hr => ?_)
  unfold decodeRuleData
  rw [show decodeParams (dataOf r) = (slotsOf (dataOf r)).filterMap id from
    filterMap_orNull_of_no_empty _ (h r hr)]

/-- C9 witness: a record with `v0` present, `v1` absent, `v2` present
decodes to the two-parameter list of the two present values. -/
theorem C9_decode_witness :
    (∀ r ∈ [withId 7 ⟨"p", some "a", none, some "c", none, none, none⟩],
      ∀ o ∈ slotsOf (dataOf r), o ≠ some "")
    ∧ loadPolicy [withId 7 ⟨"p", some "a", none, some "c", none, none, none⟩]
        = [withId 7 ⟨"p", some "a", none, some "c", none, none, none⟩].map
            (fun r => ((dataOf r).ptype, (slotsOf (dataOf r)).filterMap id))
    ∧ loadPolicy [withId 7 ⟨"p", some "a", none, some "c", none, none, none⟩]
        = [("p", ["a", "c"])] :=
  ⟨by decide, C9_decode _ (by decide), by decide⟩

theorem ruleData_eq_iff (d1 d2 : RuleData) :
    d1 = d2 ↔ (d1.ptype = d2.ptype ∧ d1.v0 = d2.v0 ∧ d1.v1 = d2.v1
      ∧ d1.v2 = d2.v2 ∧ d1.v3 = d2.v3 ∧ d1.v4 = d2.v4 ∧ d1.v5 = d2.v5) := by
  cases d1
  cases d2
  simp [RuleData.mk.injEq]

/-- C1: `savePolicy` is atomic.  For every model, prior store state, and
fault injection into the delete-all or bulk-insert statement, the call
either succeeds with the store holding exactly the records encoding the
model's rules, or fails with the transaction rolled back and the store
exactly as before the call — never empty or partially written. -/
theorem C1_savePolicy_atomic (m : Model) (store : List CasbinRule)
    (fd fi : Bool) :
    (savePolicy m store fd fi = (.ok true, savedStore m) ∧ fd = false ∧ fi = false)
    ∨ (savePolicy m store fd fi = (.error .saveFailed, store)
        ∧ (fd = true ∨ fi = true)) := by
  rw [savePolicy_eq]
  cases fd <;> cases fi <;> simp

/-- C2 (counterexample): the save/load round trip fails as stated for a
model holding the one-parameter rule `[""]` under `"p"`: the empty string
is stored as an absent slot, so loading yields the zero-parameter rule
`[]` instead of `[""]`. -/
theorem C2_save_load_counterexample :
    loadedRules (savedStore ⟨[("p", [[""]])], []⟩) "p"
      ≠ modelRules ⟨[("p", [[""]])], []⟩ "p" := by
  decide

/-- C2 (amended): after `savePolicy(model)` succeeds, loading the stored
records yields, for every rule-set name and across both the `p` and `g`
sections, exactly the rules the model held — independent of the prior
store contents (the saved store does not depend on them) — provided every
rule has at most six parameters, none the empty string. -/
theorem C2_save_load (m : Model) (h : wfModel m) (t : String) :
    loadedRules (savedStore m) t = modelRules m t :=
  loadedRules_savedStore m h t

/-- C2 witness: the save/load round trip on a concrete model with two
access rules and one grouping rule. -/
theorem C2_save_load_witness :
    wfModel ⟨[("p", [["alice", "data1", "read"], ["bob", "data2", "write"]])],
      [("g", [["alice", "admin"]])]⟩
    ∧ loadedRules (savedStore ⟨[("p", [["alice", "data1", "read"],
        ["bob", "data2", "write"]])], [("g", [["alice", "admin"]])]⟩) "p"
      = modelRules ⟨[("p", [["alice", "data1", "read"],
        ["bob", "data2", "write"]])], [("g", [["alice", "admin"]])]⟩ "p" :=
  ⟨by decide,
    C2_save_load ⟨[("p", [["alice", "data1", "read"],
      ["bob", "data2", "write"]])], [("g", [["alice", "admin"]])]⟩ (by decide) "p"⟩

/-- C5: `removePolicy` keeps exactly the records that do not match the
encoding of its arguments field-by-field — `ptype` and all six slots,
present slots equal and higher slots absent — with the `id` field playing
no part in the match; it succeeds (as an `ok` result) on every store,
including when zero records match, and removes every matching
duplicate. -/
theorem C5_removePolicy (sec1 pt : String) (rule : List String)
    (store : List CasbinRule) (r : CasbinRule) :
    (r ∈ removePolicy sec1 pt rule store
      ↔ r ∈ store ∧
        ¬ (r.ptype = (buildRule pt rule).ptype ∧ r.v0 = (buildRule pt rule).v0
          ∧ r.v1 = (buildRule pt rule).v1 ∧ r.v2 = (buildRule pt rule).v2
          ∧ r.v3 = (buildRule pt rule).v3 ∧ r.v4 = (buildRule pt rule).v4
          ∧ r.v5 = (buildRule pt rule).v5))
    ∧ removePolicyOp (newAdapter true) sec1 pt rule store
        = .ok (removePolicy sec1 pt rule store) := by
  refine ⟨?_, rfl⟩
  rw [removePolicy]
  simp only [List.mem_filter, decide_eq_true_eq, ne_eq, ruleData_eq_iff]
  simp [dataOf]

/-- C7: `removeFilteredPolicy` fails with an explicit `NotImplemented`
error on every input and in every adapter state; it never returns success
(so in particular it never reports success while deleting nothing). -/
theorem C7_removeFiltered (a : AdapterHandle) (sec1 pt : String)
    (fieldIndex : Nat) (fieldValues : List String) (store : List CasbinRule) :
    removeFilteredPolicy a sec1 pt fieldIndex fieldValues store
        = .error .notImplemented
    ∧ ∀ out, removeFilteredPolicy a sec1 pt fieldIndex fieldValues store
        ≠ .ok out :=
  ⟨rfl, fun _ h => by simp [removeFilteredPolicy] at h⟩

/-- C8 (counterexample): the lifecycle claim fails on the code.  An
adapter over a caller-supplied (borrowed) connection, after `close()`, is
in the `Closed` state, yet `removePolicy` still succeeds — it performs
the deletion and returns `ok`, not a `NotOpen` failure, because no
operation consults the lifecycle. -/
theorem C8_lifecycle_counterexample :
    (closeAdapter (newAdapter false)).life = Lifecycle.closed
    ∧ removePolicyOp (closeAdapter (newAdapter false)) "" "p" ["a"]
        [withId 0 (buildRule "p" ["a"])] = .ok [] := by
  constructor
  · rfl
  · simp [removePolicyOp, connectionUsable, closeAdapter, newAdapter,
      removePolicy, dataOf_withId]

/-- C8 (amended): the adapter performs no lifecycle check: no CRUD
operation ever fails with `NotOpen`, in any lifecycle state.  Calls in an
unusable state (before open, or after `close()` shut down an owned
connection) fail only through the connection, and on a borrowed
connection they keep succeeding after `close()`. -/
theorem C8_no_notOpen (a : AdapterHandle) (sec1 sec2 pt1 pt2 pt3 : String)
    (rule1 rule2 : List String) (store : List CasbinRule) (m : Model)
    (fd fi : Bool) (idx newId : Nat) (vals : List String) :
    loadPolicyOp a store ≠ .error .notOpen
    ∧ (savePolicyOp a m store fd fi).1 ≠ .error .notOpen
    ∧ addPolicyOp a sec1 pt1 rule1 newId store ≠ .error .notOpen
    ∧ removePolicyOp a sec1 pt2 rule2 store ≠ .error .notOpen
    ∧ removeFilteredPolicy a sec2 pt3 idx vals store ≠ .error .notOpen := by
  refine ⟨?_, ?_, ?_, ?_, ?_⟩
  · by_cases hu : connectionUsable a = true <;> simp [loadPolicyOp, hu]
  · unfold savePolicyOp
    by_cases hu : connectionUsable a = true
    · rw [if_pos hu, savePolicy_eq]
      cases (fd || fi) <;> simp
    · rw [if_neg hu]
      simp
  · by_cases hu : connectionUsable a = true <;> simp [addPolicyOp, hu]
  · by_cases hu : connectionUsable a = true <;> simp [removePolicyOp, hu]
  · simp [removeFilteredPolicy]

/-- C10: `addPolicy` and `removePolicy` ignore their `sec` argument: any
two section strings produce identical effects on the store, for every
`ptype`, rule, and store state. -/
theorem C10_sec_ignored (sec1 sec2 pt : String) (rule : List String)
    (newId : Nat) (store : List CasbinRule) :
    addPolicy sec1 pt rule newId store = addPolicy sec2 pt rule newId store
    ∧ removePolicy sec1 pt rule store = removePolicy sec2 pt rule store :=
  ⟨rfl, rfl⟩

end SequelizeCasbin
